import Mathlib

/-!
Shallow embedding of the resilient Alpha Vantage data-API client from
`tradingagents/dataflows/alpha_vantage_common.py`:

* transport layer: `get_api_key`, `composeApiParams`, `_make_single_api_request`
* retry controller: `_make_api_request` (as `attemptLoop` over the attempt list),
  with backoff `backoffDelay` and an event trace recording attempts and sleeps
* post-processor: `_filter_csv_by_date_range` over a model of the
  `pandas.read_csv` / `to_datetime` / `to_csv` pipeline.

Ambient effects of the Python code are made explicit parameters: the process
environment is an `Env`, the module-global `_current_entitlement` is a `PyVal`
argument, the network is an oracle mapping the outgoing parameter dict to an
`HttpResult`, `json.loads` is modelled by a `decoded` field carried by the
response (the object fields relevant to the client are string-valued), and
`random.uniform` jitter is an oracle function of the attempt index.
-/

/-- Python values that occur as parameter-dict values in the client: strings
and `None`. -/
inductive PyVal where
  | str (s : String)
  | pynone
  deriving DecidableEq, Repr

/-- Python truthiness restricted to the values we model: a string is truthy
iff nonempty, `None` is falsy. -/
def PyVal.truthy : PyVal → Bool
  | .str s => s ≠ ""
  | .pynone => false

/-- A Python dict with string keys, as an insertion-ordered association list. -/
abbrev Dict := List (String × PyVal)

/-- `d.get(k)`: the value at key `k`, if present. -/
def dictGet : Dict → String → Option PyVal
  | [], _ => none
  | p :: ps, k => if p.1 = k then some p.2 else dictGet ps k

/-- `d[k] = v`: replace the value at `k` in place, or append the new binding. -/
def dictSet : Dict → String → PyVal → Dict
  | [], k, v => [(k, v)]
  | p :: ps, k, v => if p.1 = k then (k, v) :: ps else p :: dictSet ps k v

/-- `d.pop(k, None)`: the dict without key `k`. -/
def dictPop (d : Dict) (k : String) : Dict :=
  d.filter (fun p => p.1 ≠ k)

/-- `k in d`. -/
def dictHas (d : Dict) (k : String) : Bool :=
  (dictGet d k).isSome

/-- The exception kinds raised inside the client.  `connectionError`,
`timeoutError` and `httpError` stand for `requests.ConnectionError`,
`requests.Timeout` and `requests.HTTPError`; `osError` for any other
`OSError`; `rateLimitError` for `AlphaVantageRateLimitError`; `valueError`
for `ValueError`; `otherError` for any remaining `Exception`. -/
inductive Exn where
  | connectionError
  | timeoutError
  | httpError (status : Nat)
  | osError
  | rateLimitError (msg : String)
  | valueError (msg : String)
  | otherError
  deriving DecidableEq, Repr

/-- Membership in the retryable clause
`except (requests.ConnectionError, requests.Timeout, OSError)`.  In the
`requests` library `RequestException` derives from `IOError` (= `OSError`),
so `requests.HTTPError` raised by `raise_for_status` is caught by the
`OSError` member of the tuple; `AlphaVantageRateLimitError` and `ValueError`
derive only from `Exception` and are not caught by it. -/
def Exn.isTransportFault : Exn → Bool
  | .connectionError => true
  | .timeoutError => true
  | .httpError _ => true
  | .osError => true
  | _ => false

/-- The process environment: the value of `os.getenv("ALPHA_VANTAGE_API_KEY")`
(`none` when the variable is absent). -/
structure Env where
  apiKey : Option String
  deriving DecidableEq, Repr

/-- Embeds `get_api_key`: returns the key, or raises
`ValueError` when the variable is absent or empty (`if not api_key`). -/
def get_api_key (env : Env) : Except Exn String :=
  match env.apiKey with
  | none => .error (.valueError "ALPHA_VANTAGE_API_KEY environment variable is not set.")
  | some k =>
    if k = "" then
      .error (.valueError "ALPHA_VANTAGE_API_KEY environment variable is not set.")
    else .ok k

/-- An HTTP response: status code, body text, and the result of `json.loads`
on the body (`none` models `json.JSONDecodeError`, i.e. a non-JSON body such
as CSV; `some fields` models a decoded JSON object with string fields). -/
structure HttpResponse where
  status : Nat
  body : String
  decoded : Option (List (String × String))
  deriving DecidableEq, Repr

/-- Outcome of `requests.get`: either an exception raised by the transport
(connection error, timeout, ...) or a completed response. -/
inductive HttpResult where
  | netError (e : Exn)
  | response (r : HttpResponse)
  deriving DecidableEq, Repr

/-- Embeds `requests.Response.raise_for_status`: raises `HTTPError` exactly
when `400 ≤ status < 600` (client or server error); any other status —
including non-2xx statuses such as 3xx — does not raise. -/
def raise_for_status (r : HttpResponse) : Except Exn Unit :=
  if 400 ≤ r.status ∧ r.status < 600 then .error (.httpError r.status) else .ok ()

/-- Lookup of a string field in a decoded JSON object
(`"Information" in response_json` followed by `response_json["Information"]`). -/
def lookupField (fields : List (String × String)) (k : String) : Option String :=
  (fields.find? (fun p => p.1 = k)).map (fun p => p.2)

/-- Does `pat` occur as a contiguous substring of `hay` (both char lists)? -/
def charsContain (hay pat : List Char) : Bool :=
  hay.tails.any (fun t => List.isPrefixOf pat t)

/-- Lower-casing of a string, character by character. -/
def lowerStr (s : String) : String :=
  ⟨s.toList.map Char.toLower⟩

/-- Embeds the check
`"rate limit" in info_message.lower() or "api key" in info_message.lower()`. -/
def mentionsRateLimitOrApiKey (info : String) : Bool :=
  charsContain (lowerStr info).toList "rate limit".toList ||
    charsContain (lowerStr info).toList "api key".toList

/-- Embeds the construction of `api_params` in `_make_single_api_request`:
copy the caller's params, set `function`, `apikey` and `source`, then resolve
the entitlement: `entitlement = api_params.get("entitlement") or
current_entitlement`; if truthy it is stored, otherwise the key is removed
(popped when present).  `current_entitlement` is the module global
`globals().get('_current_entitlement')` (`pynone` when unset). -/
def composeApiParams (params : Dict) (function_name apiKey : String)
    (current_entitlement : PyVal) : Dict :=
  let api_params :=
    dictSet (dictSet (dictSet params "function" (.str function_name))
      "apikey" (.str apiKey)) "source" (.str "trading_agents")
  let got : PyVal := (dictGet api_params "entitlement").getD .pynone
  let entitlement : PyVal := if got.truthy then got else current_entitlement
  if entitlement.truthy then dictSet api_params "entitlement" entitlement
  else if dictHas api_params "entitlement" then dictPop api_params "entitlement"
  else api_params

/-- Embeds `_make_single_api_request`.  Returns the result together with a
flag telling whether the network request was issued.  The network is an
oracle from the outgoing parameter dict to an `HttpResult`, so the value of
the oracle is consulted exactly at the composed parameters. -/
def _make_single_api_request (env : Env) (current_entitlement : PyVal)
    (function_name : String) (params : Dict) (http : Dict → HttpResult) :
    Except Exn String × Bool :=
  match get_api_key env with
  | .error e => (.error e, false)
  | .ok key =>
    match http (composeApiParams params function_name key current_entitlement) with
    | .netError e => (.error e, true)
    | .response r =>
      match raise_for_status r with
      | .error e => (.error e, true)
      | .ok _ =>
        match r.decoded with
        | none => (.ok r.body, true)
        | some fields =>
          match lookupField fields "Information" with
          | none => (.ok r.body, true)
          | some info =>
            if mentionsRateLimitOrApiKey info then
              (.error (.rateLimitError ("Alpha Vantage rate limit exceeded: " ++ info)), true)
            else (.ok r.body, true)

/-- Result of one invocation of `_make_single_api_request` as seen by the
retry loop: a returned payload or a raised exception. -/
inductive SingleResult where
  | ok (payload : String)
  | exn (e : Exn)
  deriving DecidableEq, Repr

/-- Events of one call of the retry controller, in order: the start of the
i-th attempt, and each `time.sleep` with its duration. -/
inductive Event where
  | attemptEv (i : Nat)
  | sleepEv (d : ℚ)
  deriving DecidableEq, Repr

/-- `max_retries = 3` of `_make_api_request`. -/
def max_retries : Nat := 3

/-- `base_delay = 2.0` of `_make_api_request`. -/
def base_delay : ℚ := 2

/-- Embeds `delay = min(base_delay * (2 ** attempt), 60.0)` for the attempt
index (0-based) that just failed. -/
def backoffDelay (attempt : Nat) : ℚ :=
  min (base_delay * 2 ^ attempt) 60

/-- Embeds the `for attempt in range(max_retries + 1)` loop of
`_make_api_request` over the list of remaining attempt indices.  `outcomes i`
is the result of the i-th invocation of `_make_single_api_request` and
`jitter i` the value of `random.uniform(0, delay * 0.1)` drawn after attempt
`i` failed.  The returned trace lists the events in program order.  The `[]`
case models the loop falling through (the function would return `None`); it
is unreachable because the last attempt re-raises. -/
def attemptLoop (outcomes : Nat → SingleResult) (jitter : Nat → ℚ) :
    List Nat → Except Exn String × List Event
  | [] => (.error .otherError, [])
  | attempt :: rest =>
    match outcomes attempt with
    | .ok payload => (.ok payload, [.attemptEv attempt])
    | .exn e =>
      if e.isTransportFault then
        if attempt = max_retries then (.error e, [.attemptEv attempt])
        else
          ((attemptLoop outcomes jitter rest).1,
            .attemptEv attempt ::
              .sleepEv (backoffDelay attempt + jitter attempt) ::
                (attemptLoop outcomes jitter rest).2)
      else (.error e, [.attemptEv attempt])

/-- Embeds `_make_api_request`: run the attempt loop over attempts
`0, …, max_retries`. -/
def _make_api_request (outcomes : Nat → SingleResult) (jitter : Nat → ℚ) :
    Except Exn String × List Event :=
  attemptLoop outcomes jitter (List.range (max_retries + 1))

/-- The full client call: the retry controller wrapping the transport layer,
with a per-attempt network oracle. -/
def run_api_request (env : Env) (current_entitlement : PyVal)
    (function_name : String) (params : Dict) (https : Nat → Dict → HttpResult)
    (jitter : Nat → ℚ) : Except Exn String × List Event :=
  _make_api_request
    (fun i =>
      match (_make_single_api_request env current_entitlement function_name
          params (https i)).1 with
      | .ok p => .ok p
      | .error e => .exn e)
    jitter

/-- Number of attempts recorded in a trace. -/
def countAttempts (tr : List Event) : Nat :=
  (tr.filter (fun ev => match ev with | .attemptEv _ => true | _ => false)).length

/-- The sleep durations recorded in a trace, in order. -/
def sleepDurations : List Event → List ℚ
  | [] => []
  | .sleepEv d :: tr => d :: sleepDurations tr
  | _ :: tr => sleepDurations tr

/-!
Post-processor: `_filter_csv_by_date_range`.  The pandas pipeline
`read_csv` / `to_datetime` / boolean-mask filter / `to_csv` is modelled on
unquoted CSV text over char lists.  `pd.to_datetime` on a scalar string is
modelled on its ISO `YYYY-MM-DD` fragment (the date shapes this client
receives from the vendor); an empty field read by `read_csv` is `NaN` and
converts to `NaT` without raising, and `NaT` fails both range comparisons and
serializes to an empty field.  Numeric dtype inference of `read_csv` is
abstracted: non-timestamp cells are carried as their original text. -/

/-- Characters of a string. -/
abbrev Chars := List Char

/-- Split a char list on a separator character; always returns at least one
group. -/
def splitOnChar (c : Char) : Chars → List Chars
  | [] => [[]]
  | x :: xs =>
    match splitOnChar c xs with
    | [] => [[]]
    | g :: gs => if x = c then [] :: g :: gs else (x :: g) :: gs

/-- Join char lists with a separator list between consecutive groups. -/
def joinWith (sep : Chars) : List Chars → Chars
  | [] => []
  | [g] => g
  | g :: gs => g ++ sep ++ joinWith sep gs

/-- The whitespace characters stripped by Python `str.strip()`. -/
def isPySpace (c : Char) : Bool :=
  c = ' ' || c = '\t' || c = '\n' || c = '\r' || c = '\x0b' || c = '\x0c'

/-- Python `str.strip()` on a char list. -/
def stripChars (l : Chars) : Chars :=
  ((l.dropWhile isPySpace).reverse.dropWhile isPySpace).reverse

/-- Decimal digit test. -/
def isDigitChar (c : Char) : Bool :=
  48 ≤ c.toNat && c.toNat ≤ 57

/-- Value of a decimal digit character. -/
def digitVal (c : Char) : Nat :=
  c.toNat - 48

/-- Gregorian leap year. -/
def isLeapYear (y : Nat) : Bool :=
  (y % 4 = 0 && y % 100 ≠ 0) || y % 400 = 0

/-- Days in a month of the Gregorian calendar. -/
def daysInMonth (y m : Nat) : Nat :=
  if m = 2 then (if isLeapYear y then 29 else 28)
  else if m = 4 ∨ m = 6 ∨ m = 9 ∨ m = 11 then 30
  else 31

/-- Calendar validity of year/month/day. -/
def validDate (y m d : Nat) : Bool :=
  1 ≤ m && m ≤ 12 && 1 ≤ d && d ≤ daysInMonth y m

/-- Order-preserving numeric key of a calendar date. -/
def dateKey (y m d : Nat) : Nat :=
  y * 10000 + m * 100 + d

/-- Modelled fragment of `pd.to_datetime` on a scalar string: an ISO
`YYYY-MM-DD` calendar date parses to its key; every other shape is a parse
failure. -/
def parseIsoDate (s : Chars) : Option Nat :=
  match s with
  | [y1, y2, y3, y4, sep1, mo1, mo2, sep2, d1, d2] =>
    if sep1 = '-' && sep2 = '-' && isDigitChar y1 && isDigitChar y2 &&
        isDigitChar y3 && isDigitChar y4 && isDigitChar mo1 && isDigitChar mo2 &&
        isDigitChar d1 && isDigitChar d2 then
      let y := ((digitVal y1 * 10 + digitVal y2) * 10 + digitVal y3) * 10 + digitVal y4
      let mo := digitVal mo1 * 10 + digitVal mo2
      let d := digitVal d1 * 10 + digitVal d2
      if validDate y mo d then some (dateKey y mo d) else none
    else none
  | _ => none

/-- `pd.to_datetime` on one cell of the first column as read by `read_csv`:
an empty field is `NaN` and becomes `NaT` (`ok none`); a valid date parses
(`ok (some key)`); anything else raises (`error ()`). -/
def parseDateCell (s : Chars) : Except Unit (Option Nat) :=
  if s = [] then .ok none
  else
    match parseIsoDate s with
    | some k => .ok (some k)
    | none => .error ()

/-- `pd.to_datetime(start_date)` on a range bound: raises unless it parses. -/
def parseBound (s : Chars) : Except Unit Nat :=
  match parseIsoDate s with
  | some k => .ok k
  | none => .error ()

/-- Pad a row with empty (`NaN`) cells up to the header width. -/
def padRow (k : Nat) (r : List Chars) : List Chars :=
  r ++ List.replicate (k - r.length) []

/-- The tokenizing stage of `pd.read_csv` on unquoted CSV text: split into
lines (blank lines are skipped), the first line is the header, each
remaining line splits on commas.  A row wider than the header is a tokenizer
error; a narrower row is padded with `NaN` cells.  Text with no nonblank
line raises (`EmptyDataError`). -/
def readTableRaw (csv : Chars) :
    Except Unit (List Chars × List (List Chars)) :=
  match (splitOnChar '\n' csv).filter (fun l => l ≠ []) with
  | [] => .error ()
  | h :: rest =>
    let header := splitOnChar ',' h
    let rawRows := rest.map (splitOnChar ',')
    if rawRows.all (fun r => r.length ≤ header.length) then
      .ok (header, rawRows.map (padRow header.length))
    else .error ()

/-- The dtype of a column as inferred by `pd.read_csv` on the modelled
fragment: `int64`, `float64`, or `object` (cells kept as text). -/
inductive ColKind where
  | intCol
  | floatCol
  | objCol
  deriving DecidableEq, Repr

/-- Strip one leading sign character; returns (is-negative, rest). -/
def splitSign : Chars → Bool × Chars
  | '-' :: rest => (true, rest)
  | '+' :: rest => (false, rest)
  | s => (false, s)

/-- Every character a decimal digit. -/
def allDigits (s : Chars) : Bool :=
  s.all isDigitChar

/-- An integer literal accepted by the int64 fragment: optional sign, then
1 to 18 digits (always within int64 range). -/
def intLit? (s : Chars) : Option (Bool × Chars) :=
  match splitSign s with
  | (sg, ds) =>
    if ds ≠ [] ∧ ds.length ≤ 18 ∧ allDigits ds then some (sg, ds) else none

/-- A plain decimal literal: optional sign, digits, one dot, digits, with at
least one digit overall; returns (sign, integer part, fraction part). -/
def floatLit? (s : Chars) : Option (Bool × Chars × Chars) :=
  match splitSign s with
  | (sg, body) =>
    match splitOnChar '.' body with
    | [ip, fp] =>
      if allDigits ip ∧ allDigits fp ∧ (ip ≠ [] ∨ fp ≠ []) then
        some (sg, ip, fp)
      else none
    | _ => none

/-- A numeric literal as accepted in a float64 column: an integer literal
(empty fraction) or a decimal literal. -/
def numLit? (s : Chars) : Option (Bool × Chars × Chars) :=
  match intLit? s with
  | some (sg, ds) => some (sg, ds, [])
  | none => floatLit? s

/-- Drop leading zero digits. -/
def dropLeadZeros (s : Chars) : Chars :=
  s.dropWhile (fun c => c = '0')

/-- Drop trailing zero digits. -/
def dropTrailZeros (s : Chars) : Chars :=
  (s.reverse.dropWhile (fun c => c = '0')).reverse

/-- Replace an empty digit string by "0". -/
def orZero (s : Chars) : Chars :=
  if s = [] then ['0'] else s

/-- `str(int(cell))` for an int64 cell: leading zeros dropped, negative zero
normalized to 0.  Exact for the ≤ 18-digit fragment (no overflow, no
floating point involved). -/
def canonInt (sg : Bool) (ds : Chars) : Chars :=
  match orZero (dropLeadZeros ds) with
  | t => if sg ∧ t ≠ ['0'] then '-' :: t else t

/-- `repr(float(cell))` on the modelled float64 fragment: positional decimal
with the integer part stripped of leading zeros and the fraction stripped of
trailing zeros; an empty fraction prints as `.0` (`repr(1.0) = "1.0"`); the
sign of a negative zero is kept (`repr(-0.0) = "-0.0"`). -/
def canonFloat (sg : Bool) (ip fp : Chars) : Chars :=
  (if sg then ['-'] else []) ++ orZero (dropLeadZeros ip) ++
    '.' :: orZero (dropTrailZeros fp)

/-- Whether a decimal value (integer part `ip`, fraction `fp`) lies in the
fragment on which `repr(float64(...))` provably equals the trimmed positional
decimal of `canonFloat`: at most 15 significant digits (decimal → double →
decimal round-trips exactly at 15 digits, so the shortest re-reading decimal
of the double is the trimmed input itself), and the value is zero or has
magnitude in [1e-4, 1e16) (outside that range `repr` switches to scientific
notation). -/
def floatInFragment (ip fp : Chars) : Bool :=
  (dropTrailZeros (dropLeadZeros (ip ++ fp))).length ≤ 15 &&
    (dropLeadZeros (ip ++ fp) = [] ||
      ((dropLeadZeros ip ≠ [] || (fp.take 4).any (fun c => c ≠ '0')) &&
        (dropLeadZeros ip).length ≤ 16))

/-- Dtype inference of `pd.read_csv` on one non-timestamp column, restricted
to the modelled fragment: all cells integer literals (and no empty cell)
gives `int64`; otherwise every cell empty (`NaN`) or an in-fragment numeric
literal, with at least one non-empty, gives `float64` (an empty cell forces
the column to float); anything else is `object`.  Out-of-fragment numerics
(scientific notation, more than 15 significant digits, magnitude outside
[1e-4, 1e16), more than 18 integer digits) and the textual NA sentinels of
`read_csv` are not modelled: such columns are treated as `object` and their
cells carried verbatim. -/
def inferColKind (cells : List Chars) : ColKind :=
  if cells ≠ [] ∧ cells.all (fun c => (intLit? c).isSome) then .intCol
  else if cells.any (fun c => !(c == [])) ∧ cells.all (fun c =>
      (c == []) || match numLit? c with
        | some (_, ip, fp) => floatInFragment ip fp
        | none => false) then .floatCol
  else .objCol

/-- What `to_csv` prints for one cell under the column's inferred dtype:
object columns print the text unchanged (an empty cell reads as `NaN` and
prints empty either way); int64 columns print `str(int(cell))`; float64
columns print `repr(float(cell))`, with `NaN` from an empty cell printing
empty.  The fallthrough cases are unreachable for the kinds `inferColKind`
assigns. -/
def canonCell : ColKind → Chars → Chars
  | .objCol, c => c
  | .intCol, c =>
    match intLit? c with
    | some (sg, ds) => canonInt sg ds
    | none => c
  | .floatCol, c =>
    match numLit? c with
    | some (sg, ip, fp) => canonFloat sg ip fp
    | none => c

/-- The inferred dtypes of the non-timestamp columns.  Inference looks at
the whole column as read, before any filtering, so a removed row still
influences how the kept rows print. -/
def tailKinds (header : List Chars) (rows : List (List Chars)) :
    List ColKind :=
  (List.range (header.length - 1)).map
    (fun i => inferColKind (rows.map (fun r => r.tail.getD i [])))

/-- The `read_csv` → `to_csv` dtype round-trip applied to every
non-timestamp cell of the table.  The first (timestamp) column is left
as-is: `pd.to_datetime` replaces it and it is re-serialized through the date
parser instead (`parseColumn` / `dateCellToCsv`). -/
def applyDtypes (header : List Chars) (rows : List (List Chars)) :
    List (List Chars) :=
  rows.map (fun r =>
    r.headD [] :: List.zipWith canonCell (tailKinds header rows) r.tail)

/-- Modelled `pd.read_csv`: tokenize the text, then infer each non-timestamp
column's dtype; the returned table carries in each such cell the text the
dtype round-trip will make `to_csv` print (e.g. `"007"` reads as int64 7 and
prints `"7"`; `"1.50"` reads as float64 1.5 and prints `"1.5"`; object
cells are verbatim). -/
def readTable (csv : Chars) :
    Except Unit (List Chars × List (List Chars)) :=
  match readTableRaw csv with
  | .error e => .error e
  | .ok (header, rows) => .ok (header, applyDtypes header rows)

/-- `pd.to_datetime(df[date_col])`: convert the whole first column, raising
if any entry is unparseable; each row becomes its date value paired with the
remaining cells. -/
def parseColumn : List (List Chars) → Except Unit (List (Option Nat × List Chars))
  | [] => .ok []
  | r :: rs =>
    match parseDateCell (r.headD []) with
    | .error e => .error e
    | .ok k =>
      match parseColumn rs with
      | .error e => .error e
      | .ok ps => .ok ((k, r.tail) :: ps)

/-- The boolean mask `(df[date_col] >= start_dt) & (df[date_col] <= end_dt)`
on one row; `NaT` fails both comparisons. -/
def rowInRange (startK endK : Nat) : Option Nat → Bool
  | some k => decide (startK ≤ k) && decide (k ≤ endK)
  | none => false

/-- Serialization of a date cell by `to_csv`: dates print back in ISO form,
`NaT` prints as an empty field. -/
def dateCellToCsv : Option Nat → Chars
  | none => []
  | some k =>
    (Nat.toDigits 10 (k / 10000)) ++ ['-'] ++
      (if k / 100 % 100 < 10 then ['0'] else []) ++ (Nat.toDigits 10 (k / 100 % 100)) ++
      ['-'] ++
      (if k % 100 < 10 then ['0'] else []) ++ (Nat.toDigits 10 (k % 100))

/-- `filtered_df.to_csv(index=False)`: header line then one line per row,
comma-separated, each line terminated by a newline. -/
def serializeTable (header : List Chars) (rows : List (List Chars)) : Chars :=
  joinWith [','] header ++ ['\n'] ++
    (rows.map (fun r => joinWith [','] r ++ ['\n'])).flatten

/-- The `try` block of `_filter_csv_by_date_range`, in source order:
`read_csv`, `to_datetime` on the first column, `to_datetime` on the two
bounds, the inclusive boolean-mask filter, `to_csv`.  `error ()` models any
exception reaching the `except` clause. -/
def tryFilterCsv (csv start_date end_date : Chars) : Except Unit Chars :=
  match readTable csv with
  | .error e => .error e
  | .ok (header, rows) =>
    match parseColumn rows with
    | .error e => .error e
    | .ok parsedRows =>
      match parseBound start_date with
      | .error e => .error e
      | .ok startK =>
        match parseBound end_date with
        | .error e => .error e
        | .ok endK =>
          .ok (serializeTable header
            ((parsedRows.filter (fun p => rowInRange startK endK p.1)).map
              (fun p => dateCellToCsv p.1 :: p.2)))

/-- Embeds `_filter_csv_by_date_range`.  Returns the text handed back to the
caller together with a flag telling whether the diagnostic of the `except`
clause was printed.  Empty or all-whitespace input returns unchanged before
any parsing; any exception in the `try` block falls back to the original
text with the diagnostic. -/
def _filter_csv_by_date_range (csv_data start_date end_date : String) :
    String × Bool :=
  if csv_data = "" ∨ stripChars csv_data.toList = [] then (csv_data, false)
  else
    match tryFilterCsv csv_data.toList start_date.toList end_date.toList with
    | .ok out => (⟨out⟩, false)
    | .error _ => (csv_data, true)

/-- The ten-row CSV table of the specification's worked example. -/
def csvExample : String :=
  "timestamp,open,close\n2024-01-01,1,11\n2024-01-02,2,12\n2024-01-03,3,13\n2024-01-04,4,14\n2024-01-05,5,15\n2024-01-06,6,16\n2024-01-07,7,17\n2024-01-08,8,18\n2024-01-09,9,19\n2024-01-10,10,20\n"

/-- The expected output of filtering `csvExample` to [2024-01-03, 2024-01-07]. -/
def csvExampleFiltered : String :=
  "timestamp,open,close\n2024-01-03,3,13\n2024-01-04,4,14\n2024-01-05,5,15\n2024-01-06,6,16\n2024-01-07,7,17\n"

/-!  Helper lemmas about the dict model, the retry loop and the CSV model. -/

theorem dictGet_dictSet_self (d : Dict) (k : String) (v : PyVal) :
    dictGet (dictSet d k v) k = some v := by
  induction d with
  | nil => simp [dictGet, dictSet]
  | cons p ps ih =>
    by_cases h : p.1 = k
    · simp [dictSet, h, dictGet]
    · simp [dictSet, h, dictGet, ih]

theorem dictGet_dictSet_other (d : Dict) (k k2 : String) (v : PyVal)
    (h : k2 ≠ k) : dictGet (dictSet d k v) k2 = dictGet d k2 := by
  have hk : ¬ k = k2 := fun hh => h hh.symm
  induction d with
  | nil => simp [dictGet, dictSet, hk]
  | cons p ps ih =>
    by_cases hp : p.1 = k
    · have hp2 : ¬ p.1 = k2 := by rw [hp]; exact hk
      simp only [dictSet, if_pos hp, dictGet, hk, if_false, hp2]
    · simp only [dictSet, if_neg hp, dictGet]
      by_cases hp2 : p.1 = k2
      · simp only [if_pos hp2]
      · simp only [if_neg hp2, ih]

theorem dictGet_dictPop_self (d : Dict) (k : String) :
    dictGet (dictPop d k) k = none := by
  induction d with
  | nil => simp [dictGet, dictPop]
  | cons p ps ih =>
    by_cases h : p.1 = k
    · simpa [dictPop, h] using ih
    · simpa [dictPop, h, dictGet] using ih

theorem countAttempts_attemptLoop_le (o : Nat → SingleResult) (j : Nat → ℚ) :
    ∀ l : List Nat, countAttempts (attemptLoop o j l).2 ≤ l.length := by
  intro l
  induction l with
  | nil => simp [attemptLoop, countAttempts]
  | cons a rest ih =>
    simp only [attemptLoop]
    cases o a with
    | ok payload => simp [countAttempts, List.filter]
    | exn e =>
      by_cases ht : e.isTransportFault
      · by_cases ha : a = max_retries
        · simp [ht, ha, countAttempts, List.filter]
        · simp only [ht, ha, if_true, if_false, reduceIte]
          simp only [countAttempts, List.filter, List.length] at ih ⊢
          omega
      · simp [ht, countAttempts, List.filter]

theorem sleepDurations_attemptLoop (o : Nat → SingleResult) (j : Nat → ℚ) :
    ∀ l : List Nat, ∃ t, sleepDurations (attemptLoop o j l).2 ++ t
      = (l.filter (fun a => !(a == max_retries))).map
          (fun a => backoffDelay a + j a) := by
  intro l
  induction l with
  | nil => exact ⟨[], rfl⟩
  | cons a rest ih =>
    simp only [attemptLoop]
    cases o a with
    | ok payload =>
      exact ⟨(List.filter (fun a => !(a == max_retries)) (a :: rest)).map
        (fun a => backoffDelay a + j a), by simp [sleepDurations]⟩
    | exn e =>
      by_cases ht : e.isTransportFault
      · by_cases ha : a = max_retries
        · refine ⟨(List.filter (fun a => !(a == max_retries)) rest).map
            (fun a => backoffDelay a + j a), ?_⟩
          simp [ht, ha, sleepDurations]
        · obtain ⟨t, hti⟩ := ih
          refine ⟨t, ?_⟩
          simp [ht, ha, sleepDurations, hti]
      · exact ⟨(List.filter (fun a => !(a == max_retries)) (a :: rest)).map
          (fun a => backoffDelay a + j a), by simp [ht, sleepDurations]⟩

theorem parseColumn_error_of_mem {rows : List (List Chars)}
    (h : ∃ r ∈ rows, parseDateCell (r.headD []) = .error ()) :
    parseColumn rows = .error () := by
  induction rows with
  | nil => simp at h
  | cons r rs ih =>
    obtain ⟨r0, hmem, herr⟩ := h
    rcases List.mem_cons.mp hmem with h1 | h1
    · subst h1
      simp only [parseColumn, herr]
    · cases hpd : parseDateCell (r.headD []) with
      | error u => cases u; simp only [parseColumn, hpd]
      | ok k => simp only [parseColumn, hpd, ih ⟨r0, h1, herr⟩]

theorem parseColumn_mem {rows : List (List Chars)}
    {ps : List (Option Nat × List Chars)} (h : parseColumn rows = .ok ps) :
    ∀ p ∈ ps, ∃ r ∈ rows,
      parseDateCell (r.headD []) = .ok p.1 ∧ r.tail = p.2 := by
  induction rows generalizing ps with
  | nil =>
    simp only [parseColumn, Except.ok.injEq] at h
    subst h
    simp
  | cons r rs ih =>
    cases hpd : parseDateCell (r.headD []) with
    | error u => simp only [parseColumn, hpd] at h; exact Except.noConfusion h
    | ok k =>
      cases hc : parseColumn rs with
      | error u => simp only [parseColumn, hpd, hc] at h; exact Except.noConfusion h
      | ok ps2 =>
        simp only [parseColumn, hpd, hc, Except.ok.injEq] at h
        subst h
        intro p hp
        rcases List.mem_cons.mp hp with h1 | h1
        · subst h1
          exact ⟨r, List.mem_cons_self r rs, hpd, rfl⟩
        · obtain ⟨r0, hr0, hpd0, ht0⟩ := ih hc p h1
          exact ⟨r0, List.mem_cons_of_mem r hr0, hpd0, ht0⟩

theorem attemptLoop_no_retry (outcomes : Nat → SingleResult) (jitter : Nat → ℚ)
    (e : Exn) (h0 : outcomes 0 = SingleResult.exn e)
    (hnt : e.isTransportFault = false) :
    _make_api_request outcomes jitter = (.error e, [.attemptEv 0]) := by
  have hr : List.range (max_retries + 1) = [0, 1, 2, 3] := by decide
  simp only [_make_api_request, hr, attemptLoop, h0, hnt, Bool.false_eq_true,
    if_false]

theorem attemptLoop_retry_step (o : Nat → SingleResult) (j : Nat → ℚ)
    (a : Nat) (rest : List Nat) (e : Exn)
    (ha : o a = SingleResult.exn e) (ht : e.isTransportFault = true)
    (hm : a ≠ max_retries) :
    attemptLoop o j (a :: rest)
      = ((attemptLoop o j rest).1,
         .attemptEv a :: .sleepEv (backoffDelay a + j a)
           :: (attemptLoop o j rest).2) := by
  simp only [attemptLoop, ha, ht, if_true, hm, if_false]

theorem attemptLoop_head_attempt (o : Nat → SingleResult) (j : Nat → ℚ)
    (a : Nat) (rest : List Nat) :
    ∃ tr, (attemptLoop o j (a :: rest)).2 = .attemptEv a :: tr := by
  simp only [attemptLoop]
  cases o a with
  | ok p => exact ⟨[], rfl⟩
  | exn e =>
    by_cases ht : e.isTransportFault
    · by_cases hm : a = max_retries
      · simp only [ht, if_true, hm]
        exact ⟨[], rfl⟩
      · simp only [ht, if_true, hm, if_false]
        exact ⟨_, rfl⟩
    · simp only [ht, Bool.false_eq_true, if_false]
      exact ⟨[], rfl⟩

/-- C1 (counterexample): the claim quantifies over every completed GET with a
non-2xx status, but `raise_for_status` raises only for 4xx/5xx.  A completed
GET with status 304 (non-2xx) produces no failure at all: the transport layer
returns the body as a success payload, so no fault is classified and nothing
is retried. -/
theorem C1_counterexample :
    (_make_single_api_request ⟨some "k"⟩ .pynone "TIME_SERIES_DAILY" []
        (fun _ => .response ⟨304, "payload", none⟩)).1 = .ok "payload"
    ∧ ¬ (200 ≤ 304 ∧ 304 < 300) :=
  ⟨rfl, by decide⟩

/-- C1 (amended): for every transport-layer invocation whose HTTP GET
completes with a 4xx or 5xx status, the resulting failure is the `HTTPError`
of `raise_for_status`, which is classified as a transport fault (it is an
`OSError` descendant), and the retry controller therefore sleeps and starts
the next attempt rather than propagating it immediately. -/
theorem C1_http_4xx_5xx_retried (env : Env) (key : String) (ce : PyVal)
    (fn : String) (params : Dict) (r : HttpResponse)
    (henv : env.apiKey = some key) (hkey : key ≠ "")
    (h4 : 400 ≤ r.status) (h6 : r.status < 600) :
    (_make_single_api_request env ce fn params (fun _ => .response r)).1
      = .error (.httpError r.status)
    ∧ (Exn.httpError r.status).isTransportFault = true
    ∧ ∀ outcomes jitter, outcomes 0 = SingleResult.exn (.httpError r.status) →
        ∃ tr, (_make_api_request outcomes jitter).2
          = .attemptEv 0 :: .sleepEv (backoffDelay 0 + jitter 0)
              :: .attemptEv 1 :: tr := by
  refine ⟨?_, rfl, ?_⟩
  · have hrs : raise_for_status r = .error (.httpError r.status) := by
      rw [raise_for_status, if_pos ⟨h4, h6⟩]
    simp [_make_single_api_request, get_api_key, henv, hkey, hrs]
  · intro outcomes jitter h0
    have hr : List.range (max_retries + 1) = [0, 1, 2, 3] := by decide
    obtain ⟨tr, htr⟩ := attemptLoop_head_attempt outcomes jitter 1 [2, 3]
    refine ⟨tr, ?_⟩
    rw [_make_api_request, hr,
      attemptLoop_retry_step outcomes jitter 0 [1, 2, 3] _ h0 rfl (by decide)]
    simp only [htr]

/-- C4: for every request made while the API-key environment variable is
absent or empty, the transport call fails with the configuration
`ValueError` with the network-attempted flag false (before any network
attempt, whatever the network oracle would answer), and the retry controller
propagates a `ValueError` from attempt 0 immediately: one attempt, no sleep,
no retry. -/
theorem C4_missing_key_config_fault (env : Env) (ce : PyVal) (fn : String)
    (params : Dict) (http : Dict → HttpResult)
    (hk : env.apiKey = none ∨ env.apiKey = some "") :
    _make_single_api_request env ce fn params http
      = (.error (.valueError "ALPHA_VANTAGE_API_KEY environment variable is not set."),
         false)
    ∧ ∀ outcomes jitter msg, outcomes 0 = SingleResult.exn (.valueError msg) →
        _make_api_request outcomes jitter
          = (.error (.valueError msg), [.attemptEv 0]) := by
  constructor
  · rcases hk with hk | hk <;>
      simp [_make_single_api_request, get_api_key, hk]
  · intro outcomes jitter msg h0
    exact attemptLoop_no_retry outcomes jitter _ h0 rfl

/-- C3: a structurally successful (2xx) response whose decoded JSON object
carries an `Information` field mentioning "rate limit" or "api key"
(case-insensitive) makes the transport layer raise the rate-limit fault
carrying the vendor message, and the retry controller terminates with it at
attempt 0: one attempt, no sleep, zero retries regardless of the remaining
budget. -/
theorem C3_rate_limit_no_retry (env : Env) (key : String) (ce : PyVal)
    (fn : String) (params : Dict) (r : HttpResponse)
    (fields : List (String × String)) (info : String)
    (henv : env.apiKey = some key) (hkey : key ≠ "")
    (h2a : 200 ≤ r.status) (h2b : r.status < 300)
    (hdec : r.decoded = some fields)
    (hinfo : lookupField fields "Information" = some info)
    (hsig : mentionsRateLimitOrApiKey info = true) :
    (_make_single_api_request env ce fn params (fun _ => .response r)).1
      = .error (.rateLimitError ("Alpha Vantage rate limit exceeded: " ++ info))
    ∧ ∀ outcomes jitter msg, outcomes 0 = SingleResult.exn (.rateLimitError msg) →
        _make_api_request outcomes jitter
          = (.error (.rateLimitError msg), [.attemptEv 0]) := by
  constructor
  · have hrs : raise_for_status r = .ok () := by
      rw [raise_for_status, if_neg]
      omega
    simp [_make_single_api_request, get_api_key, henv, hkey, hrs, hdec, hinfo,
      hsig]
  · intro outcomes jitter msg h0
    exact attemptLoop_no_retry outcomes jitter _ h0 rfl

/-- C2: with transport faults on every attempt, the call makes exactly 4
attempts (3 retries), strictly sequential with each backoff sleep completing
between consecutive attempts, and terminates with the transport fault of the
last attempt; and every call whatsoever makes at most 4 attempts. -/
theorem C2_retry_budget (outcomes : Nat → SingleResult) (jitter : Nat → ℚ)
    (es : Nat → Exn)
    (hall : ∀ i, i ≤ max_retries →
      outcomes i = SingleResult.exn (es i) ∧ (es i).isTransportFault = true) :
    _make_api_request outcomes jitter
      = (.error (es 3),
        [.attemptEv 0, .sleepEv (backoffDelay 0 + jitter 0),
         .attemptEv 1, .sleepEv (backoffDelay 1 + jitter 1),
         .attemptEv 2, .sleepEv (backoffDelay 2 + jitter 2),
         .attemptEv 3])
    ∧ countAttempts (_make_api_request outcomes jitter).2 = 4
    ∧ ∀ o2 j2, countAttempts (_make_api_request o2 j2).2 ≤ max_retries + 1 := by
  obtain ⟨h0, t0⟩ := hall 0 (by decide)
  obtain ⟨h1, t1⟩ := hall 1 (by decide)
  obtain ⟨h2, t2⟩ := hall 2 (by decide)
  obtain ⟨h3, t3⟩ := hall 3 (by decide)
  have hr : List.range (max_retries + 1) = [0, 1, 2, 3] := by decide
  have hmain : _make_api_request outcomes jitter
      = (.error (es 3),
        [.attemptEv 0, .sleepEv (backoffDelay 0 + jitter 0),
         .attemptEv 1, .sleepEv (backoffDelay 1 + jitter 1),
         .attemptEv 2, .sleepEv (backoffDelay 2 + jitter 2),
         .attemptEv 3]) := by
    rw [_make_api_request, hr,
      attemptLoop_retry_step outcomes jitter 0 [1, 2, 3] _ h0 t0 (by decide),
      attemptLoop_retry_step outcomes jitter 1 [2, 3] _ h1 t1 (by decide),
      attemptLoop_retry_step outcomes jitter 2 [3] _ h2 t2 (by decide)]
    simp only [attemptLoop, h3, t3, if_true, max_retries]
  refine ⟨hmain, ?_, ?_⟩
  · rw [hmain]
    rfl
  · intro o2 j2
    have h := countAttempts_attemptLoop_le o2 j2 (List.range (max_retries + 1))
    simpa using h

/-- C5: for every retry n (1-indexed), the sleep before it is
`min(2.0 * 2^(n-1), 60.0)` plus the jitter drawn from [0, 10% of that
delay] (the sleeps of any run are an initial segment of the three values
`backoffDelay (n-1) + jitter (n-1)`), and within one call the realized
delay sequence is monotonically non-decreasing and bounded by the 60.0
cap. -/
theorem C5_backoff_delays (jitter : Nat → ℚ)
    (hj : ∀ i, 0 ≤ jitter i ∧ jitter i ≤ backoffDelay i * (1 / 10)) :
    (∀ n, 1 ≤ n → n ≤ max_retries →
      backoffDelay (n - 1) = min (2 * 2 ^ (n - 1)) 60)
    ∧ (∀ outcomes, ∃ t,
        sleepDurations (_make_api_request outcomes jitter).2 ++ t
          = [backoffDelay 0 + jitter 0, backoffDelay 1 + jitter 1,
             backoffDelay 2 + jitter 2])
    ∧ (∀ outcomes,
        List.Chain' (· ≤ ·) (sleepDurations (_make_api_request outcomes jitter).2))
    ∧ (∀ outcomes d,
        d ∈ sleepDurations (_make_api_request outcomes jitter).2 → d ≤ 60) := by
  have hb0 : backoffDelay 0 = 2 := by norm_num [backoffDelay, base_delay]
  have hb1 : backoffDelay 1 = 4 := by norm_num [backoffDelay, base_delay]
  have hb2 : backoffDelay 2 = 8 := by norm_num [backoffDelay, base_delay]
  have hj0 := hj 0
  have hj1 := hj 1
  have hj2 := hj 2
  rw [hb0] at hj0
  rw [hb1] at hj1
  rw [hb2] at hj2
  have hpre : ∀ outcomes, ∃ t,
      sleepDurations (_make_api_request outcomes jitter).2 ++ t
        = [backoffDelay 0 + jitter 0, backoffDelay 1 + jitter 1,
           backoffDelay 2 + jitter 2] := by
    intro outcomes
    obtain ⟨t, ht⟩ :=
      sleepDurations_attemptLoop outcomes jitter (List.range (max_retries + 1))
    have hf : (List.range (max_retries + 1)).filter
        (fun a => !(a == max_retries)) = [0, 1, 2] := by decide
    rw [hf] at ht
    exact ⟨t, by simpa using ht⟩
  have hchainL : List.Chain' (· ≤ ·)
      [backoffDelay 0 + jitter 0, backoffDelay 1 + jitter 1,
       backoffDelay 2 + jitter 2] := by
    rw [List.chain'_cons, List.chain'_cons]
    refine ⟨?_, ?_, List.chain'_singleton _⟩
    · rw [hb0, hb1]
      linarith [hj0.1, hj0.2, hj1.1]
    · rw [hb1, hb2]
      linarith [hj1.1, hj1.2, hj2.1]
  refine ⟨fun n _ _ => rfl, hpre, ?_, ?_⟩
  · intro outcomes
    obtain ⟨t, ht⟩ := hpre outcomes
    have hc := hchainL
    rw [← ht] at hc
    exact (List.chain'_append.mp hc).1
  · intro outcomes d hd
    obtain ⟨t, ht⟩ := hpre outcomes
    have hmem : d ∈ [backoffDelay 0 + jitter 0, backoffDelay 1 + jitter 1,
        backoffDelay 2 + jitter 2] := by
      rw [← ht]
      exact List.mem_append_left t hd
    simp only [List.mem_cons, List.not_mem_nil, or_false] at hmem
    rcases hmem with h | h | h
    · rw [h, hb0]; linarith [hj0.2]
    · rw [h, hb1]; linarith [hj1.2]
    · rw [h, hb2]; linarith [hj2.2]

theorem composeApiParams_entitlement (params : Dict) (fn key : String)
    (ce : PyVal) :
    dictGet (composeApiParams params fn key ce) "entitlement"
      = (if (if ((dictGet params "entitlement").getD .pynone).truthy
              then (dictGet params "entitlement").getD .pynone else ce).truthy
         then some (if ((dictGet params "entitlement").getD .pynone).truthy
              then (dictGet params "entitlement").getD .pynone else ce)
         else none) := by
  have hA : dictGet (dictSet (dictSet (dictSet params "function" (.str fn))
      "apikey" (.str key)) "source" (.str "trading_agents")) "entitlement"
      = dictGet params "entitlement" := by
    rw [dictGet_dictSet_other _ _ _ _ (by decide),
      dictGet_dictSet_other _ _ _ _ (by decide),
      dictGet_dictSet_other _ _ _ _ (by decide)]
  simp only [composeApiParams, hA]
  by_cases hT : (if ((dictGet params "entitlement").getD .pynone).truthy
      then (dictGet params "entitlement").getD .pynone else ce).truthy
  · rw [if_pos hT, if_pos hT, dictGet_dictSet_self]
  · rw [if_neg hT, if_neg hT]
    by_cases hH : dictHas (dictSet (dictSet (dictSet params "function" (.str fn))
        "apikey" (.str key)) "source" (.str "trading_agents")) "entitlement"
    · rw [if_pos hH, dictGet_dictPop_self]
    · rw [if_neg hH]
      cases hgA : dictGet (dictSet (dictSet (dictSet params "function" (.str fn))
          "apikey" (.str key)) "source" (.str "trading_agents")) "entitlement" with
      | none => rfl
      | some v =>
        exact absurd (by rw [dictHas, hgA]; rfl) hH

/-- C6: entitlement resolution of the outgoing request.  A truthy
descriptor-level entitlement is carried as-is; with a falsy descriptor value
and a truthy process-wide override the override is carried; with both falsy
the outgoing parameters contain no entitlement key; the outgoing request
never carries an empty or `None` entitlement; and the single network call is
issued exactly at the composed parameters (the result depends on the network
oracle only through its value there). -/
theorem C6_entitlement_resolution (params : Dict) (fn key : String)
    (ce : PyVal) :
    (∀ s, s ≠ "" → dictGet params "entitlement" = some (.str s) →
      dictGet (composeApiParams params fn key ce) "entitlement"
        = some (.str s))
    ∧ (((dictGet params "entitlement").getD .pynone).truthy = false →
        ce.truthy = true →
        dictGet (composeApiParams params fn key ce) "entitlement" = some ce)
    ∧ (((dictGet params "entitlement").getD .pynone).truthy = false →
        ce.truthy = false →
        dictGet (composeApiParams params fn key ce) "entitlement" = none)
    ∧ (∀ v, dictGet (composeApiParams params fn key ce) "entitlement" = some v →
        v.truthy = true)
    ∧ (∀ env http1 http2, env.apiKey = some key → key ≠ "" →
        http1 (composeApiParams params fn key ce)
          = http2 (composeApiParams params fn key ce) →
        _make_single_api_request env ce fn params http1
          = _make_single_api_request env ce fn params http2) := by
  refine ⟨?_, ?_, ?_, ?_, ?_⟩
  · intro s hs hp
    have hT : (PyVal.str s).truthy = true := by
      simp [PyVal.truthy, hs]
    rw [composeApiParams_entitlement, hp]
    simp only [Option.getD_some, hT, if_true]
  · intro hf hce
    rw [composeApiParams_entitlement, hf]
    simp only [Bool.false_eq_true, if_false, hce, if_true]
  · intro hf hce
    rw [composeApiParams_entitlement, hf]
    simp only [Bool.false_eq_true, if_false, hce]
  · intro v hv
    rw [composeApiParams_entitlement] at hv
    by_cases hT : (if ((dictGet params "entitlement").getD .pynone).truthy
        then (dictGet params "entitlement").getD .pynone else ce).truthy
    · rw [if_pos hT] at hv
      cases hv
      exact hT
    · rw [if_neg hT] at hv
      exact Option.noConfusion hv
  · intro env http1 http2 henv hkey hhttp
    have hk : get_api_key env = .ok key := by
      simp [get_api_key, henv, hkey]
    simp only [_make_single_api_request, hk, hhttp]

/-- C10 (implicit): an empty-string descriptor entitlement is falsy, so a
set (truthy) process-wide override wins and its value is sent; and a falsy
descriptor entitlement combined with a falsy override results in the
entitlement key being absent from the outgoing parameters. -/
theorem C10_falsy_entitlement (params : Dict) (fn key : String) :
    (∀ o, o ≠ "" → dictGet params "entitlement" = some (.str "") →
      dictGet (composeApiParams params fn key (.str o)) "entitlement"
        = some (.str o))
    ∧ (∀ v ce, PyVal.truthy v = false → PyVal.truthy ce = false →
        dictGet params "entitlement" = some v →
        dictGet (composeApiParams params fn key ce) "entitlement" = none) := by
  constructor
  · intro o ho hp
    have hT : (PyVal.str o).truthy = true := by
      simp [PyVal.truthy, ho]
    rw [composeApiParams_entitlement, hp]
    simp [PyVal.truthy, ho]
  · intro v ce hv hce hp
    rw [composeApiParams_entitlement, hp]
    simp only [Option.getD_some, hv, Bool.false_eq_true, if_false, hce]

theorem filterCsv_ok_eq (csv s e : String) (header : List Chars)
    (rows : List (List Chars)) (parsed : List (Option Nat × List Chars))
    (startK endK : Nat)
    (hne : stripChars csv.toList ≠ [])
    (hread : readTable csv.toList = .ok (header, rows))
    (hcol : parseColumn rows = .ok parsed)
    (hs : parseIsoDate s.toList = some startK)
    (he : parseIsoDate e.toList = some endK) :
    _filter_csv_by_date_range csv s e
      = (⟨serializeTable header
          ((parsed.filter (fun p => rowInRange startK endK p.1)).map
            (fun p => dateCellToCsv p.1 :: p.2))⟩, false) := by
  have hcond : ¬(csv = "" ∨ stripChars csv.toList = []) := by
    rintro (rfl | hh)
    · exact hne (by decide)
    · exact hne hh
  have htf : tryFilterCsv csv.toList s.toList e.toList
      = .ok (serializeTable header
        ((parsed.filter (fun p => rowInRange startK endK p.1)).map
          (fun p => dateCellToCsv p.1 :: p.2))) := by
    simp only [tryFilterCsv, hread, hcol, parseBound, hs, he]
  rw [_filter_csv_by_date_range, if_neg hcond]
  simp only [htf]

/-- C7: empty or all-whitespace input is returned unchanged (without the
diagnostic); whenever the filtering pipeline cannot complete, the original
text is returned unchanged together with the diagnostic instead of an error;
and one unparseable first-column cell in any row aborts filtering for the
whole table (the pipeline fails as a whole, never per-row). -/
theorem C7_fail_open (csv s e : String) :
    (stripChars csv.toList = [] →
      _filter_csv_by_date_range csv s e = (csv, false))
    ∧ (stripChars csv.toList ≠ [] →
        tryFilterCsv csv.toList s.toList e.toList = .error () →
        _filter_csv_by_date_range csv s e = (csv, true))
    ∧ (∀ header rows, readTable csv.toList = .ok (header, rows) →
        (∃ r ∈ rows, parseDateCell (r.headD []) = .error ()) →
        tryFilterCsv csv.toList s.toList e.toList = .error ()) := by
  refine ⟨?_, ?_, ?_⟩
  · intro h
    rw [_filter_csv_by_date_range, if_pos (Or.inr h)]
  · intro hne herr
    have hcond : ¬(csv = "" ∨ stripChars csv.toList = []) := by
      rintro (rfl | hh)
      · exact hne (by decide)
      · exact hne hh
    rw [_filter_csv_by_date_range, if_neg hcond]
    simp only [herr]
  · intro header rows hread hex
    simp only [tryFilterCsv, hread, parseColumn_error_of_mem hex]

/-- C8: on a well-formed table the output is the serialization of exactly
those rows whose first-column date lies inclusively within the range, kept
as a sublist (original order, no reordering, no deduplication); and on the
ten-row example table with range [2024-01-03, 2024-01-07] the output is
exactly the rows 2024-01-03 .. 2024-01-07 in original order. -/
theorem C8_inclusive_range_filter (csv s e : String) (header : List Chars)
    (rows : List (List Chars)) (parsed : List (Option Nat × List Chars))
    (startK endK : Nat)
    (hne : stripChars csv.toList ≠ [])
    (hread : readTable csv.toList = .ok (header, rows))
    (hcol : parseColumn rows = .ok parsed)
    (hs : parseIsoDate s.toList = some startK)
    (he : parseIsoDate e.toList = some endK) :
    _filter_csv_by_date_range csv s e
      = (⟨serializeTable header
          ((parsed.filter (fun p => rowInRange startK endK p.1)).map
            (fun p => dateCellToCsv p.1 :: p.2))⟩, false)
    ∧ List.Sublist (parsed.filter (fun p => rowInRange startK endK p.1)) parsed
    ∧ (∀ p ∈ parsed,
        (p ∈ parsed.filter (fun p => rowInRange startK endK p.1)
          ↔ rowInRange startK endK p.1 = true))
    ∧ _filter_csv_by_date_range csvExample "2024-01-03" "2024-01-07"
      = (csvExampleFiltered, false) := by
  refine ⟨filterCsv_ok_eq csv s e header rows parsed startK endK hne hread
    hcol hs he, List.filter_sublist _, ?_, ?_⟩
  · intro p hp
    constructor
    · intro hmem
      exact (List.mem_filter.mp hmem).2
    · intro hr
      exact List.mem_filter.mpr ⟨hp, hr⟩
  · set_option maxRecDepth 8000 in decide

/-- C9 (counterexample): the claim states that no column's values are
reformatted besides the timestamp re-serialization, but the
`read_csv` → `to_csv` round trip re-serializes pandas-inferred numeric
dtypes: filtering succeeds on this input (no fail-open) and the
non-timestamp value cell `1.50` comes back as `1.5`. -/
theorem C9_counterexample :
    _filter_csv_by_date_range "d,v\n2024-01-02,1.50\n" "2024-01-01"
        "2024-01-03"
      = ("d,v\n2024-01-02,1.5\n", false)
    ∧ canonCell .floatCol "1.50".toList = "1.5".toList
    ∧ ("1.5" : String) ≠ "1.50" :=
  ⟨rfl, by decide, by decide⟩

/-- C9 (amended): on a well-formed table the output is the original header
(column names and order preserved) serialized with a selection of rows, each
obtained from a tokenized input row by re-serializing the first cell through
the date parser round-trip and every other cell through its column's
`read_csv` dtype round-trip (`canonCell`: numeric columns are canonicalized,
e.g. `1.50` → `1.5` and `007` → `7`); cells of object (non-numeric) columns
are preserved verbatim by that round-trip. -/
theorem C9_header_preserved_numeric_roundtrip (csv s e : String)
    (header : List Chars) (rawRows : List (List Chars))
    (parsed : List (Option Nat × List Chars)) (startK endK : Nat)
    (hne : stripChars csv.toList ≠ [])
    (hraw : readTableRaw csv.toList = .ok (header, rawRows))
    (hcol : parseColumn (applyDtypes header rawRows) = .ok parsed)
    (hs : parseIsoDate s.toList = some startK)
    (he : parseIsoDate e.toList = some endK) :
    ∃ kept : List (Option Nat × List Chars),
      (_filter_csv_by_date_range csv s e).1
        = ⟨serializeTable header (kept.map (fun p => dateCellToCsv p.1 :: p.2))⟩
      ∧ (∀ p ∈ kept, ∃ r ∈ rawRows,
          parseDateCell (r.headD []) = .ok p.1
          ∧ p.2 = List.zipWith canonCell (tailKinds header rawRows) r.tail)
      ∧ (∀ c, canonCell .objCol c = c) := by
  have hread : readTable csv.toList
      = .ok (header, applyDtypes header rawRows) := by
    simp only [readTable, hraw]
  refine ⟨parsed.filter (fun p => rowInRange startK endK p.1), ?_, ?_,
    fun c => rfl⟩
  · rw [filterCsv_ok_eq csv s e header (applyDtypes header rawRows) parsed
      startK endK hne hread hcol hs he]
  · intro p hp
    obtain ⟨r2, hr2, hpd, htl⟩ :=
      parseColumn_mem hcol p (List.mem_filter.mp hp).1
    obtain ⟨r, hr, hreq⟩ := List.mem_map.mp hr2
    subst hreq
    refine ⟨r, hr, ?_, ?_⟩
    · simpa using hpd
    · exact htl.symm

theorem C1_http_4xx_5xx_retried_witness :
    (_make_single_api_request ⟨some "k"⟩ .pynone "NEWS_SENTIMENT" []
        (fun _ => .response ⟨503, "err", none⟩)).1 = .error (.httpError 503)
    ∧ ∃ tr, (_make_api_request (fun _ => .exn (.httpError 503)) (fun _ => 0)).2
        = .attemptEv 0 :: .sleepEv (backoffDelay 0 + 0) :: .attemptEv 1 :: tr := by
  have h := C1_http_4xx_5xx_retried ⟨some "k"⟩ "k" .pynone "NEWS_SENTIMENT" []
    ⟨503, "err", none⟩ rfl (by decide) (by decide) (by decide)
  exact ⟨h.1, h.2.2 (fun _ => .exn (.httpError 503)) (fun _ => 0) rfl⟩

theorem C2_retry_budget_witness :
    _make_api_request (fun _ => .exn .connectionError) (fun _ => 0)
      = (.error .connectionError,
        [.attemptEv 0, .sleepEv (backoffDelay 0 + 0),
         .attemptEv 1, .sleepEv (backoffDelay 1 + 0),
         .attemptEv 2, .sleepEv (backoffDelay 2 + 0),
         .attemptEv 3])
    ∧ countAttempts
        (_make_api_request (fun _ => .exn .connectionError) (fun _ => 0)).2 = 4 := by
  have h := C2_retry_budget (fun _ => .exn .connectionError) (fun _ => 0)
    (fun _ => .connectionError) (fun i _ => ⟨rfl, rfl⟩)
  exact ⟨h.1, h.2.1⟩

theorem C3_rate_limit_no_retry_witness :
    (_make_single_api_request ⟨some "k"⟩ .pynone "NEWS_SENTIMENT" []
        (fun _ => .response ⟨200, "body",
          some [("Information", "rate limit reached")]⟩)).1
      = .error (.rateLimitError
          ("Alpha Vantage rate limit exceeded: " ++ "rate limit reached"))
    ∧ _make_api_request (fun _ => .exn (.rateLimitError "m")) (fun _ => 0)
      = (.error (.rateLimitError "m"), [.attemptEv 0]) := by
  have h := C3_rate_limit_no_retry ⟨some "k"⟩ "k" .pynone "NEWS_SENTIMENT" []
    ⟨200, "body", some [("Information", "rate limit reached")]⟩
    [("Information", "rate limit reached")] "rate limit reached"
    rfl (by decide) (by decide) (by decide) rfl rfl (by decide)
  exact ⟨h.1, h.2 (fun _ => .exn (.rateLimitError "m")) (fun _ => 0) "m" rfl⟩

theorem C4_missing_key_config_fault_witness :
    _make_single_api_request ⟨none⟩ .pynone "NEWS_SENTIMENT" []
        (fun _ => .response ⟨200, "x", none⟩)
      = (.error (.valueError
          "ALPHA_VANTAGE_API_KEY environment variable is not set."), false)
    ∧ _make_api_request (fun _ => .exn (.valueError "m")) (fun _ => 0)
      = (.error (.valueError "m"), [.attemptEv 0]) := by
  have h := C4_missing_key_config_fault ⟨none⟩ .pynone "NEWS_SENTIMENT" []
    (fun _ => .response ⟨200, "x", none⟩) (Or.inl rfl)
  exact ⟨h.1, h.2 (fun _ => .exn (.valueError "m")) (fun _ => 0) "m" rfl⟩

theorem C5_backoff_delays_witness :
    (∃ t, sleepDurations
        (_make_api_request (fun _ => .exn .timeoutError) (fun _ => 0)).2 ++ t
      = [backoffDelay 0 + 0, backoffDelay 1 + 0, backoffDelay 2 + 0])
    ∧ List.Chain' (· ≤ ·) (sleepDurations
        (_make_api_request (fun _ => .exn .timeoutError) (fun _ => 0)).2) := by
  have hjp : ∀ i : Nat, (0:ℚ) ≤ 0 ∧ (0:ℚ) ≤ backoffDelay i * (1 / 10) := by
    intro i
    refine ⟨le_refl 0, mul_nonneg ?_ (by norm_num)⟩
    simp only [backoffDelay, base_delay]
    positivity
  have h := C5_backoff_delays (fun _ => 0) hjp
  exact ⟨h.2.1 (fun _ => .exn .timeoutError), h.2.2.1 (fun _ => .exn .timeoutError)⟩

theorem C6_entitlement_resolution_witness :
    dictGet (composeApiParams [("entitlement", PyVal.str "realtime")] "F" "k"
      (.str "delayed")) "entitlement" = some (.str "realtime")
    ∧ dictGet (composeApiParams [("symbol", PyVal.str "IBM")] "F" "k"
      (.str "delayed")) "entitlement" = some (.str "delayed")
    ∧ dictGet (composeApiParams [("symbol", PyVal.str "IBM")] "F" "k"
      .pynone) "entitlement" = none := by
  have h1 := C6_entitlement_resolution [("entitlement", PyVal.str "realtime")]
    "F" "k" (.str "delayed")
  have h2 := C6_entitlement_resolution [("symbol", PyVal.str "IBM")]
    "F" "k" (.str "delayed")
  have h3 := C6_entitlement_resolution [("symbol", PyVal.str "IBM")]
    "F" "k" .pynone
  exact ⟨h1.1 "realtime" (by decide) (by decide),
    h2.2.1 (by decide) (by decide), h3.2.2.1 (by decide) (by decide)⟩

theorem C7_fail_open_witness :
    _filter_csv_by_date_range " \n " "2024-01-01" "2024-01-02" = (" \n ", false)
    ∧ _filter_csv_by_date_range "timestamp,open\nnot-a-date,1\n" "2024-01-01"
        "2024-01-05" = ("timestamp,open\nnot-a-date,1\n", true) := by
  have h1 := C7_fail_open " \n " "2024-01-01" "2024-01-02"
  have h2 := C7_fail_open "timestamp,open\nnot-a-date,1\n" "2024-01-01"
    "2024-01-05"
  exact ⟨h1.1 rfl, h2.2.1 (by decide) rfl⟩

theorem C8_inclusive_range_filter_witness :
    _filter_csv_by_date_range csvExample "2024-01-03" "2024-01-07"
      = (csvExampleFiltered, false) :=
  (C8_inclusive_range_filter "d,v\n2024-01-02,5\n" "2024-01-01" "2024-01-03"
    [['d'], ['v']] [["2024-01-02".toList, ['5']]] [(some 20240102, [['5']])]
    20240101 20240103 (by decide) rfl rfl rfl rfl).2.2.2

theorem C9_header_preserved_numeric_roundtrip_witness :
    ∃ kept : List (Option Nat × List Chars),
      (_filter_csv_by_date_range "d,v,n\n2024-01-02,1.50,abc\n" "2024-01-01"
          "2024-01-03").1
        = ⟨serializeTable [['d'], ['v'], ['n']]
            (kept.map (fun p => dateCellToCsv p.1 :: p.2))⟩
      ∧ (∀ p ∈ kept,
          ∃ r ∈ [["2024-01-02".toList, "1.50".toList, "abc".toList]],
          parseDateCell (r.headD []) = .ok p.1
          ∧ p.2 = List.zipWith canonCell
              (tailKinds [['d'], ['v'], ['n']]
                [["2024-01-02".toList, "1.50".toList, "abc".toList]]) r.tail)
      ∧ (∀ c, canonCell .objCol c = c) :=
  C9_header_preserved_numeric_roundtrip "d,v,n\n2024-01-02,1.50,abc\n"
    "2024-01-01" "2024-01-03" [['d'], ['v'], ['n']]
    [["2024-01-02".toList, "1.50".toList, "abc".toList]]
    [(some 20240102, ["1.5".toList, "abc".toList])] 20240101 20240103
    (by decide) rfl rfl rfl rfl

theorem C10_falsy_entitlement_witness :
    dictGet (composeApiParams [("entitlement", PyVal.str "")] "F" "k"
      (.str "delayed")) "entitlement" = some (.str "delayed")
    ∧ dictGet (composeApiParams [("entitlement", PyVal.pynone)] "F" "k"
      .pynone) "entitlement" = none := by
  have h1 := C10_falsy_entitlement [("entitlement", PyVal.str "")] "F" "k"
  have h2 := C10_falsy_entitlement [("entitlement", PyVal.pynone)] "F" "k"
  exact ⟨h1.1 "delayed" (by decide) (by decide),
    h2.2 .pynone .pynone (by decide) (by decide) (by decide)⟩
